import Mathlib

/-!
# Verification of the docker-py APIClient core (src/docker/api/client.py)

A shallow embedding of the transport-selection, version-negotiation and
stream-demultiplexing layer of the APIClient class, together with proofs of
the specified properties.

Bytes are modelled as natural numbers, byte buffers as lists of naturals.
Generators are modelled as the finite lists of the values they yield.
Fallible code returns Except.
-/

namespace DockerPy

/-- STREAM_HEADER_SIZE_BYTES from docker/constants.py: the multiplexed frame
header is 8 bytes. -/
def STREAM_HEADER_SIZE_BYTES : Nat := 8

/-- Big-endian interpretation of a 4-byte list, as done by
struct.unpack of the format >BxxxL on bytes 4..7 of the header. -/
def beLen4 : List Nat → Nat
  | [b0, b1, b2, b3] => ((b0 * 256 + b1) * 256 + b2) * 256 + b3
  | _ => 0

/-- The 4-byte big-endian encoding of a length, as struct.pack would emit for
format >L (faithful for lengths below 2 ^ 32). -/
def toBE4 (n : Nat) : List Nat :=
  [n / 16777216 % 256, n / 65536 % 256, n / 256 % 256, n % 256]

/-- Encoding one multiplexed frame: 8-byte header
[channel, 0, 0, 0] ++ big-endian length, then the payload bytes. -/
def encodeFrame (channel : Nat) (payload : List Nat) : List Nat :=
  channel :: 0 :: 0 :: 0 :: (toBE4 payload.length ++ payload)

/-- Encoding a sequence of (channel, payload) frames by concatenation. -/
def encodeFrames (frames : List (Nat × List Nat)) : List Nat :=
  (frames.map fun f => encodeFrame f.1 f.2).flatten

/-- The loop body of APIClient._multiplexed_buffer_helper: walker starts at 0;
while at least 8 bytes remain past the walker, read the 8-byte header, take
the big-endian length from bytes 4..7 (byte 0, the channel id, is unpacked
into _ and discarded), slice the payload buf[start:end] (Python slicing
clamps at the end of the buffer) and advance the walker past it. -/
def demuxBufAux (buf : List Nat) (walker : Nat) : List (List Nat) :=
  if buf.length - walker < STREAM_HEADER_SIZE_BYTES then []
  else
    let header := (buf.drop walker).take STREAM_HEADER_SIZE_BYTES
    let length := beLen4 (header.drop 4)
    let start := walker + STREAM_HEADER_SIZE_BYTES
    ((buf.drop start).take length) :: demuxBufAux buf (start + length)
termination_by buf.length - walker
decreasing_by
  simp only [STREAM_HEADER_SIZE_BYTES] at *
  omega

/-- APIClient._multiplexed_buffer_helper: the list of data blocks yielded by
the generator on a fully buffered response body. -/
def _multiplexed_buffer_helper (buf : List Nat) : List (List Nat) :=
  demuxBufAux buf 0

/-- Outcome of a generator that may raise: either the list of yielded chunks
followed by normal termination, or an uncaught exception. -/
inductive GenResult where
  | ok (chunks : List (List Nat))
  | err (msg : String)
deriving DecidableEq, Repr

/-- APIClient._multiplexed_response_stream_helper: the stream of bytes a
response delivers is modelled as a list; response.raw.read n returns up to n
bytes off the front. An empty header read ends the generator; a header of
fewer than 8 bytes makes struct.unpack raise struct.error; a frame of
declared length zero is skipped by the continue statement; an empty payload
read ends the generator; otherwise the payload is yielded. -/
def demuxStream (buf : List Nat) : GenResult :=
  if buf.length = 0 then GenResult.ok []
  else if buf.length < STREAM_HEADER_SIZE_BYTES then
    GenResult.err "struct.error: unpack requires a buffer of 8 bytes"
  else
    let header := buf.take STREAM_HEADER_SIZE_BYTES
    let length := beLen4 (header.drop 4)
    let rest := buf.drop STREAM_HEADER_SIZE_BYTES
    if length = 0 then demuxStream rest
    else
      let data := rest.take length
      if data.length = 0 then GenResult.ok []
      else
        match demuxStream (rest.drop length) with
        | GenResult.ok tail => GenResult.ok (data :: tail)
        | GenResult.err e => GenResult.err e
termination_by buf.length
decreasing_by
  all_goals
    simp only [STREAM_HEADER_SIZE_BYTES, List.length_drop]
    omega

/-- Alias making clear which source function demuxStream embeds. -/
def _multiplexed_response_stream_helper (buf : List Nat) : GenResult :=
  demuxStream buf

/-- Take-and-drop reformulation of the buffered demultiplexer loop: instead
of advancing a walker into a fixed buffer, drop the consumed prefix.  Proved
equivalent to demuxBufAux below; all structural reasoning happens here. -/
def demuxBufRec (buf : List Nat) : List (List Nat) :=
  if buf.length < 8 then []
  else
    let length := beLen4 ((buf.take 8).drop 4)
    ((buf.drop 8).take length) :: demuxBufRec (buf.drop (8 + length))
termination_by buf.length
decreasing_by
  simp only [List.length_drop]
  omega

/-- Well-formedness of a multiplexed buffer: every frame's declared length
fits inside the bytes remaining after its header (the spec's invariant
"frame length must not exceed remaining buffered bytes"). -/
def framesFitB (buf : List Nat) : Bool :=
  if buf.length < 8 then true
  else
    let length := beLen4 ((buf.take 8).drop 4)
    decide (length ≤ buf.length - 8) && framesFitB (buf.drop (8 + length))
termination_by buf.length
decreasing_by
  simp only [List.length_drop]
  omega

/-- The lengths declared by the successive frame headers of a buffer, walked
exactly as the buffered demultiplexer walks them. -/
def declaredLens (buf : List Nat) : List Nat :=
  if buf.length < 8 then []
  else
    let length := beLen4 ((buf.take 8).drop 4)
    length :: declaredLens (buf.drop (8 + length))
termination_by buf.length
decreasing_by
  simp only [List.length_drop]
  omega

/-! ## Stream-mode selection (_get_result_tty) and version comparison -/

/-- Which helper _get_result_tty hands the response to. -/
inductive ResultMode where
  | legacyLine
  | rawStream
  | rawBuffered
  | multiplexedStream
  | multiplexedBuffered
deriving DecidableEq, Repr

/-- Componentwise comparison of dotted version numbers, numerically on each
component, shorter tuple first on a tie prefix. -/
def cmpComponents : List Nat → List Nat → Ordering
  | [], [] => Ordering.eq
  | [], _ :: _ => Ordering.lt
  | _ :: _, [] => Ordering.gt
  | a :: as, b :: bs =>
    if a < b then Ordering.lt
    else if b < a then Ordering.gt
    else cmpComponents as bs

/-- Modelled from the spec: docker.utils.utils.compare_version, called by
_get_result_tty but absent from src/.  It compares two dotted versions as
numeric component tuples (StrictVersion style) and returns 0 on equality,
-1 when the first is newer, 1 when the second is newer. -/
def compare_version (v1 v2 : List Nat) : Int :=
  match cmpComponents v1 v2 with
  | Ordering.eq => 0
  | Ordering.gt => -1
  | Ordering.lt => 1

/-- APIClient._get_result_tty: versions for which compare_version('1.6', v)
is negative use the old line-oriented streaming; otherwise a tty-enabled
target gets raw passthrough (streamed or buffered by the stream flag), and a
non-tty target gets multiplexed decoding (streamed or buffered). -/
def _get_result_tty (version : List Nat) (stream is_tty : Bool) : ResultMode :=
  if compare_version [1, 6] version < 0 then ResultMode.legacyLine
  else if is_tty then
    (if stream then ResultMode.rawStream else ResultMode.rawBuffered)
  else
    (if stream then ResultMode.multiplexedStream else ResultMode.multiplexedBuffered)

/-- APIClient._stream_raw_result_old: the lines the response yields are
modelled as a list; blank keep-alive lines are filtered out by the
`if line` test, every other line is yielded. -/
def _stream_raw_result_old : List (List Nat) → List (List Nat)
  | [] => []
  | l :: ls =>
    if l.isEmpty then _stream_raw_result_old ls
    else l :: _stream_raw_result_old ls

/-! ## Version negotiation, construction, URL building -/

/-- Modelled from the spec: DEFAULT_DOCKER_API_VERSION from
docker/constants.py, absent from src/; the class docstring gives the
default version 1.24. -/
def DEFAULT_DOCKER_API_VERSION : String := "1.24"

/-- Modelled from the spec: MINIMUM_DOCKER_API_VERSION from
docker/constants.py, absent from src/ (the minimum-supported constant the
resolved version is compared against); its concrete value is immaterial to
the claims proved here. -/
def MINIMUM_DOCKER_API_VERSION : String := "1.21"

/-- ASCII lowercasing of a string, the version.lower() call of __init__,
modelled characterwise. -/
def lowerStr (s : String) : String :=
  String.mk (s.data.map Char.toLower)

/-- Split a character list at the dots. -/
def splitDotAux : List Char → List Char → List (List Char)
  | [], acc => [acc.reverse]
  | c :: cs, acc =>
      if c = '.' then acc.reverse :: splitDotAux cs []
      else splitDotAux cs (c :: acc)

/-- Read a decimal numeral from a character list. -/
def parseComp (cs : List Char) : Nat :=
  cs.foldl (fun n c => n * 10 + (c.toNat - 48)) 0

/-- Split a dotted version string into numeric components, as StrictVersion
does for well-formed docker API versions. -/
def parseVersion (s : String) : List Nat :=
  (splitDotAux s.data []).map parseComp

instance {ε α : Type} [DecidableEq ε] [DecidableEq α] :
    DecidableEq (Except ε α)
  | Except.error e, Except.error f =>
      if h : e = f then Decidable.isTrue (by rw [h])
      else Decidable.isFalse (by simp [h])
  | Except.error _, Except.ok _ => Decidable.isFalse (by simp)
  | Except.ok _, Except.error _ => Decidable.isFalse (by simp)
  | Except.ok a, Except.ok b =>
      if h : a = b then Decidable.isTrue (by rw [h])
      else Decidable.isFalse (by simp [h])

/-- Modelled from the spec: docker.utils.utils.version_lt, called by
APIClient.__init__ but absent from src/: whether the first version is older
than the second, comparing numeric dotted components. -/
def version_lt (v1 v2 : String) : Bool :=
  0 < compare_version (parseVersion v1) (parseVersion v2)

/-- APIClient._retrieve_server_version: the daemon's version-discovery
response (the JSON object returned by the unversioned version endpoint,
whose fetch lives outside src/) is modelled as an association list; a
missing ApiVersion key is the KeyError branch, re-raised as a
DockerException with a descriptive message. -/
def _retrieve_server_version (discovery : List (String × String)) :
    Except String String :=
  match discovery.lookup "ApiVersion" with
  | some v => Except.ok v
  | none =>
      Except.error
        "Invalid response from docker daemon: key \"ApiVersion\" is missing."

/-- The version-resolution step of APIClient.__init__, together with the
number of network calls it performs: None picks the compiled default, the
sentinel auto (case-insensitive) fetches the discovery document (one network
call), any other string is taken as given. -/
def resolveVersionCalls (version : Option String)
    (discovery : List (String × String)) : Except String String × Nat :=
  match version with
  | none => (Except.ok DEFAULT_DOCKER_API_VERSION, 0)
  | some v =>
      if lowerStr v = "auto" then (_retrieve_server_version discovery, 1)
      else (Except.ok v, 0)

/-- The observable outcome of a successful APIClient construction: the
stored base url, the resolved version, and how many compatibility warnings
warnings.warn emitted. -/
structure Session where
  base_url : Option String
  version : String
  warningCount : Nat
deriving DecidableEq, Repr

/-- APIClient.__init__, modelling the steps the claims are about, in source
order: (1) the TLS check — tls with a falsy base_url raises
TLSParameterError before anything else, in particular before any network
access; (2) version resolution (the only step that can touch the network,
counted); (3) the version_lt comparison against the minimum-supported
constant, emitting one warning when the resolved version is older.  Returns
the construction outcome paired with the number of network calls made. -/
def APIClient_init (base_url : Option String) (version : Option String)
    (tls : Bool) (discovery : List (String × String)) :
    Except String Session × Nat :=
  if tls && (match base_url with | none => true | some s => s.isEmpty) then
    (Except.error "If using TLS, the base_url argument must be provided.", 0)
  else
    match resolveVersionCalls version discovery with
    | (Except.error e, n) => (Except.error e, n)
    | (Except.ok v, n) =>
        (Except.ok
          { base_url := base_url, version := v,
            warningCount :=
              if version_lt v MINIMUM_DOCKER_API_VERSION then 1 else 0 }, n)

/-- APIClient._url: the versioned form interpolates
base_url ++ /v ++ version ++ path; with versioned_api false the version
prefix is omitted. -/
def _url (base_url version path : String) (versioned_api : Bool) : String :=
  if versioned_api then base_url ++ "/v" ++ version ++ path
  else base_url ++ path

/-! ## Socket timeout disabling (_disable_socket_timeout) -/

/-- A raw socket as _disable_socket_timeout sees it: whether it exposes
settimeout and gettimeout, and its current timeout (none = disabled,
some q = a finite value in seconds; 0 = non-blocking). -/
structure RawSock where
  has_settimeout : Bool
  has_gettimeout : Bool
  timeout : Option ℚ
deriving DecidableEq

/-- The loop body of APIClient._disable_socket_timeout for one socket of the
pair [socket, socket._sock]: skip it when it lacks settimeout; read the
timeout through gettimeout when available, keeping the sentinel -1
otherwise; leave an already-disabled (None) or non-blocking (0.0) timeout
untouched; otherwise call settimeout(None). -/
def disableTimeoutOne (s : RawSock) : RawSock :=
  if !s.has_settimeout then s
  else
    let t : Option ℚ := if s.has_gettimeout then s.timeout else some (-1)
    match t with
    | none => s
    | some q => if q = 0 then s else { s with timeout := none }

/-- An extracted socket together with its optional nested _sock. -/
structure SockPair where
  outer : RawSock
  inner : Option RawSock
deriving DecidableEq

/-- APIClient._disable_socket_timeout: iterates the loop body over
[socket, getattr(socket, '_sock', None)]; a None entry has no settimeout
attribute and is skipped. -/
def _disable_socket_timeout (s : SockPair) : SockPair :=
  { outer := disableTimeoutOne s.outer, inner := s.inner.map disableTimeoutOne }

/-- A concrete socket pair exercising _disable_socket_timeout: an outer
socket with an active 5-second timeout and a nested raw socket whose
timeout is already disabled. -/
def sampleSockPair : SockPair :=
  { outer := { has_settimeout := true, has_gettimeout := true, timeout := some 5 },
    inner := some { has_settimeout := true, has_gettimeout := true, timeout := none } }

/-! ## JSON POST body filtering (_post_json) -/

/-- The body and headers of the request _post_json hands to _post. -/
structure JsonRequest (α : Type) where
  body : List (String × α)
  headers : List (String × String)

/-- The dict-filtering loop of APIClient._post_json: for a dict payload,
build data2 by keeping exactly the items whose value is not None.  The dict
is modelled as an association list (values Option α, None = none). -/
def _post_json_body {α : Type} (data : List (String × Option α)) :
    List (String × α) :=
  data.filterMap (fun kv =>
    match kv.2 with
    | some v => some (kv.1, v)
    | none => none)

/-- Python dict read d[k] on the association-list model: the value bound to
the key, if present. -/
def dictGet (k : String) : List (String × String) → Option String
  | [] => none
  | p :: t => if p.1 = k then some p.2 else dictGet k t

/-- Python dict assignment d[k] = v on an association-list model: replace
the value at an existing key, else append the new binding. -/
def dictSet (hs : List (String × String)) (k v : String) :
    List (String × String) :=
  if hs.any (fun p => p.1 = k) then
    hs.map (fun p => if p.1 = k then (k, v) else p)
  else hs ++ [(k, v)]

/-- APIClient._post_json on a dict payload: the serialized body is the
None-filtered dict, and the Content-Type header is set to application/json
on the headers passed through kwargs. -/
def _post_json {α : Type} (data : List (String × Option α))
    (headers : List (String × String)) : JsonRequest α :=
  { body := _post_json_body data,
    headers := dictSet headers "Content-Type" "application/json" }

/-- What the claim about _disable_socket_timeout asserts of one socket
processed by the loop body: untouched when it lacks settimeout, when its
timeout is already disabled, or when it is non-blocking; disabled when a
finite positive timeout is active; and any change at all comes from the
finite-positive case and results in a disabled timeout. -/
def disableSpec (r rOut : RawSock) : Prop :=
  (r.has_settimeout = false → rOut = r)
  ∧ (r.timeout = none → rOut = r)
  ∧ (r.timeout = some 0 → rOut = r)
  ∧ (∀ q : ℚ, r.timeout = some q → 0 < q → r.has_settimeout = true →
      rOut = { r with timeout := none })
  ∧ (rOut ≠ r → rOut.timeout = none ∧ ∃ q : ℚ, r.timeout = some q ∧ 0 < q)

/-! # Proofs

## The buffered demultiplexer -/

theorem beLen4_toBE4 (n : Nat) (h : n < 2 ^ 32) : beLen4 (toBE4 n) = n := by
  simp only [toBE4, beLen4]
  omega

theorem length_toBE4 (n : Nat) : (toBE4 n).length = 4 := by
  simp [toBE4]

theorem encodeFrame_length (c : Nat) (p : List Nat) :
    (encodeFrame c p).length = 8 + p.length := by
  simp [encodeFrame, length_toBE4]
  omega

theorem encodeFrame_append_take (c : Nat) (p rest : List Nat) :
    ((encodeFrame c p ++ rest).take 8) =
      c :: 0 :: 0 :: 0 :: toBE4 p.length := by
  simp only [encodeFrame, List.cons_append, List.take_succ_cons,
    List.append_assoc]
  rw [show (4 : Nat) = (toBE4 p.length).length from (length_toBE4 _).symm,
    List.take_left]

theorem encodeFrame_append_drop (c : Nat) (p rest : List Nat) :
    ((encodeFrame c p ++ rest).drop 8) = p ++ rest := by
  simp only [encodeFrame, List.cons_append, List.drop_succ_cons]
  rw [List.append_assoc,
    show (4 : Nat) = (toBE4 p.length).length from (length_toBE4 _).symm,
    List.drop_left]

theorem demuxBufAux_eq_rec (buf : List Nat) (w : Nat) :
    demuxBufAux buf w = demuxBufRec (buf.drop w) := by
  rw [demuxBufAux.eq_def, demuxBufRec.eq_def]
  simp only [STREAM_HEADER_SIZE_BYTES, List.length_drop]
  by_cases h : buf.length - w < 8
  · simp [h]
  · rw [if_neg h, if_neg h]
    rw [List.drop_drop, List.drop_drop]
    rw [demuxBufAux_eq_rec buf
      (w + 8 + beLen4 (List.drop 4 (List.take 8 (List.drop w buf))))]
    ring_nf
termination_by buf.length - w
decreasing_by
  omega

theorem _multiplexed_buffer_helper_eq_rec (buf : List Nat) :
    _multiplexed_buffer_helper buf = demuxBufRec buf := by
  unfold _multiplexed_buffer_helper
  rw [demuxBufAux_eq_rec, List.drop_zero]

theorem demuxBufRec_stop (buf : List Nat) (h : buf.length < 8) :
    demuxBufRec buf = [] := by
  rw [demuxBufRec.eq_def, if_pos h]

theorem demuxBufRec_frame (c : Nat) (p rest : List Nat)
    (hp : p.length < 2 ^ 32) :
    demuxBufRec (encodeFrame c p ++ rest) = p :: demuxBufRec rest := by
  have hlen : (encodeFrame c p ++ rest).length = 8 + p.length + rest.length := by
    rw [List.length_append, encodeFrame_length]
  rw [demuxBufRec.eq_def, if_neg (by omega)]
  have h4 : ((c :: 0 :: 0 :: 0 :: toBE4 p.length).drop 4) = toBE4 p.length := rfl
  have h5 : (encodeFrame c p ++ rest).drop (8 + p.length) = rest := by
    rw [show 8 + p.length = (encodeFrame c p).length from
      (encodeFrame_length c p).symm, List.drop_left]
  simp only [encodeFrame_append_take, encodeFrame_append_drop, h4,
    beLen4_toBE4 _ hp, List.take_left, h5]

theorem encodeFrames_cons (f : Nat × List Nat) (fs : List (Nat × List Nat)) :
    encodeFrames (f :: fs) = encodeFrame f.1 f.2 ++ encodeFrames fs := by
  simp [encodeFrames]

theorem demuxBufRec_encodeFrames (frames : List (Nat × List Nat))
    (residual : List Nat) (h : ∀ f ∈ frames, f.2.length < 2 ^ 32)
    (hr : residual.length < 8) :
    demuxBufRec (encodeFrames frames ++ residual) = frames.map Prod.snd := by
  induction frames with
  | nil =>
      simp only [encodeFrames, List.map_nil, List.flatten_nil, List.nil_append,
        List.map_nil]
      exact demuxBufRec_stop residual hr
  | cons f fs ih =>
      rw [encodeFrames_cons, List.append_assoc,
        demuxBufRec_frame f.1 f.2 _ (h f (List.mem_cons_self f fs)),
        ih (fun g hg => h g (List.mem_cons_of_mem f hg)), List.map_cons]

theorem demuxStream_stop : demuxStream [] = GenResult.ok [] := by
  rw [demuxStream.eq_def]
  simp

theorem demuxStream_frame (c : Nat) (p rest : List Nat)
    (hp : p.length < 2 ^ 32) :
    demuxStream (encodeFrame c p ++ rest) =
      if p.length = 0 then demuxStream rest
      else
        match demuxStream rest with
        | GenResult.ok tail => GenResult.ok (p :: tail)
        | GenResult.err e => GenResult.err e := by
  have hlen : (encodeFrame c p ++ rest).length = 8 + p.length + rest.length := by
    rw [List.length_append, encodeFrame_length]
  rw [demuxStream.eq_def, if_neg (by omega), if_neg (by
    simp only [STREAM_HEADER_SIZE_BYTES]
    omega)]
  have h4 : ((c :: 0 :: 0 :: 0 :: toBE4 p.length).drop 4) = toBE4 p.length := rfl
  have h5 : (encodeFrame c p ++ rest).drop (8 + p.length) = rest := by
    rw [show 8 + p.length = (encodeFrame c p).length from
      (encodeFrame_length c p).symm, List.drop_left]
  simp only [STREAM_HEADER_SIZE_BYTES, encodeFrame_append_take,
    encodeFrame_append_drop, h4, beLen4_toBE4 _ hp, List.take_left]
  have hdrop : (p ++ rest).drop p.length = rest := List.drop_left p rest
  by_cases hz : p.length = 0
  · have hp0 : p = [] := List.length_eq_zero.mp hz
    subst hp0
    simp
  · simp only [if_neg hz, hdrop]

theorem demuxStream_encodeFrames (frames : List (Nat × List Nat))
    (h : ∀ f ∈ frames, f.2.length < 2 ^ 32) :
    demuxStream (encodeFrames frames) =
      GenResult.ok ((frames.map Prod.snd).filter (fun p => !p.isEmpty)) := by
  induction frames with
  | nil => simpa [encodeFrames] using demuxStream_stop
  | cons f fs ih =>
      rw [encodeFrames_cons,
        demuxStream_frame f.1 f.2 _ (h f (List.mem_cons_self f fs)),
        ih (fun g hg => h g (List.mem_cons_of_mem f hg))]
      by_cases hz : f.2.length = 0
      · have hp0 : f.2 = [] := List.length_eq_zero.mp hz
        simp [hz, hp0]
      · have hne : f.2.isEmpty = false := by
          cases hf : f.2 with
          | nil => simp [hf] at hz
          | cons x xs => simp
        simp [hz, hne]

/-- Under the well-formedness invariant, every payload the buffered
demultiplexer emits has exactly the length its frame header declares. -/
theorem demuxBufRec_lens (buf : List Nat) (h : framesFitB buf = true) :
    (demuxBufRec buf).map List.length = declaredLens buf := by
  by_cases hl : buf.length < 8
  · rw [demuxBufRec_stop _ hl, declaredLens.eq_def, if_pos hl]
    rfl
  · rw [framesFitB.eq_def, if_neg hl] at h
    simp only [Bool.and_eq_true, decide_eq_true_eq] at h
    rw [demuxBufRec.eq_def, if_neg hl, declaredLens.eq_def, if_neg hl]
    simp only [List.map_cons]
    congr 1
    · rw [List.length_take, List.length_drop]
      omega
    · exact demuxBufRec_lens _ h.2
termination_by buf.length
decreasing_by
  simp only [List.length_drop]
  omega

/-! ## Version comparison and mode selection -/

theorem cmpComponents_swap (a : List Nat) : ∀ b : List Nat,
    cmpComponents b a = (cmpComponents a b).swap := by
  induction a with
  | nil =>
      intro b
      cases b <;> rfl
  | cons x xs ih =>
      intro b
      cases b with
      | nil => rfl
      | cons y ys =>
          simp only [cmpComponents]
          rcases Nat.lt_trichotomy x y with hxy | hxy | hxy
          · simp [hxy, Nat.lt_asymm hxy, Ordering.swap]
          · subst hxy
            simp [Nat.lt_irrefl, ih ys]
          · simp [hxy, Nat.lt_asymm hxy, Ordering.swap]

theorem cmpComponents_lt_iff (a : List Nat) : ∀ b : List Nat,
    cmpComponents a b = Ordering.lt ↔ List.Lex (· < ·) a b := by
  induction a with
  | nil =>
      intro b
      cases b with
      | nil =>
          constructor
          · intro hc
            cases hc
          · intro hc
            exact absurd hc (List.Lex.not_nil_right _ _)
      | cons y ys =>
          constructor
          · intro _
            exact List.Lex.nil
          · intro _
            rfl
  | cons x xs ih =>
      intro b
      cases b with
      | nil =>
          constructor
          · intro hc
            cases hc
          · intro hc
            exact absurd hc (List.Lex.not_nil_right _ _)
      | cons y ys =>
          simp only [cmpComponents]
          rcases Nat.lt_trichotomy x y with hxy | hxy | hxy
          · rw [if_pos hxy]
            constructor
            · intro _
              exact List.Lex.rel hxy
            · intro _
              rfl
          · subst hxy
            rw [if_neg (by omega), if_neg (by omega), ih ys]
            constructor
            · intro hl
              exact List.Lex.cons hl
            · intro hl
              cases hl with
              | cons h => exact h
              | rel h => omega
          · rw [if_neg (by omega), if_pos hxy]
            constructor
            · intro hc
              cases hc
            · intro hl
              cases hl with
              | cons h => omega
              | rel h => omega

theorem cmpComponents_gt_iff (a b : List Nat) :
    cmpComponents a b = Ordering.gt ↔ List.Lex (· < ·) b a := by
  rw [cmpComponents_swap b a]
  rw [← cmpComponents_lt_iff b a]
  cases cmpComponents b a <;> simp [Ordering.swap]

theorem compare_version_neg_iff (v1 v2 : List Nat) :
    compare_version v1 v2 < 0 ↔ List.Lex (· < ·) v2 v1 := by
  unfold compare_version
  rw [← cmpComponents_gt_iff]
  cases cmpComponents v1 v2 <;> simp

/-! ## Claim C1 -/

/-- C1 as stated is false: the buffered demultiplexer discards the channel
byte (struct.unpack result bound to _), so two frame sequences differing
only in their channel ids decode to the same output; the sequence of
(channel, payload) pairs is not reproduced. -/
theorem c1_counterexample :
    _multiplexed_buffer_helper (encodeFrames [(1, [65])])
        = _multiplexed_buffer_helper (encodeFrames [(2, [65])])
      ∧ [((1 : Nat), [(65 : Nat)])] ≠ [((2 : Nat), [(65 : Nat)])] := by
  have h1 := demuxBufRec_encodeFrames [(1, [65])] [] (by decide) (by decide)
  have h2 := demuxBufRec_encodeFrames [(2, [65])] [] (by decide) (by decide)
  rw [List.append_nil] at h1 h2
  refine ⟨?_, by decide⟩
  rw [_multiplexed_buffer_helper_eq_rec, _multiplexed_buffer_helper_eq_rec,
    h1, h2]
  decide

/-- C1 (amended): decoding the concatenation of encoded frames with the
buffered-mode demultiplexer reproduces the original sequence of payloads in
order; the channel ids are read but discarded. -/
theorem c1_round_trip (frames : List (Nat × List Nat))
    (h : ∀ f ∈ frames, f.2.length < 2 ^ 32) :
    _multiplexed_buffer_helper (encodeFrames frames) = frames.map Prod.snd := by
  rw [_multiplexed_buffer_helper_eq_rec]
  have hrt := demuxBufRec_encodeFrames frames [] h (by decide)
  rwa [List.append_nil] at hrt

/-- Witness for c1_round_trip at a concrete two-frame sequence. -/
theorem c1_round_trip_witness :
    (∀ f ∈ [((1 : Nat), [(72 : Nat), 105]), (2, [10])], f.2.length < 2 ^ 32)
      ∧ _multiplexed_buffer_helper (encodeFrames [(1, [72, 105]), (2, [10])])
          = [[72, 105], [10]] :=
  ⟨by decide, by
    rw [c1_round_trip [(1, [72, 105]), (2, [10])] (by decide)]
    decide⟩

/-! ## Claim C2 -/

/-- C2 as stated is false for the streamed-response shape: a zero-length
frame followed by a one-byte frame yields only the one payload; the empty
chunk the claim requires is not emitted (the continue statement skips it). -/
theorem c2_counterexample :
    _multiplexed_response_stream_helper
        (encodeFrame 1 [] ++ encodeFrame 1 [66]) = GenResult.ok [[66]]
      ∧ GenResult.ok [[66]] ≠ GenResult.ok [[], [66]] := by
  constructor
  · unfold _multiplexed_response_stream_helper
    have hb : encodeFrame 1 [] ++ encodeFrame 1 [66]
        = [1, 0, 0, 0, 0, 0, 0, 0, 1, 0, 0, 0, 0, 0, 0, 1, 66] := by decide
    rw [hb]
    simp [demuxStream, beLen4, STREAM_HEADER_SIZE_BYTES]
  · decide

/-- C2 (amended): a frame whose declared length is zero never ends the
sequence; in the buffered-blob shape it is emitted as an empty chunk, while
in the streamed-response shape it is skipped without emitting anything, and
decoding continues with the subsequent frames either way. -/
theorem c2_zero_length_frames (c : Nat) (rest : List Nat) :
    _multiplexed_buffer_helper (encodeFrame c [] ++ rest)
        = [] :: _multiplexed_buffer_helper rest
      ∧ _multiplexed_response_stream_helper (encodeFrame c [] ++ rest)
        = _multiplexed_response_stream_helper rest := by
  constructor
  · rw [_multiplexed_buffer_helper_eq_rec, _multiplexed_buffer_helper_eq_rec]
    exact demuxBufRec_frame c [] rest (by decide)
  · unfold _multiplexed_response_stream_helper
    have hf := demuxStream_frame c [] rest (by decide)
    simpa using hf

/-! ## Claim C3 -/

/-- C3: a buffer of complete frames followed by fewer than 8 residual bytes
decodes to exactly the complete frames' payloads — no partial frame, no
error; and in streaming mode an empty header read (exhausted stream) ends
the sequence cleanly with a normal GenResult.ok instead of an error. -/
theorem c3_truncated_tail (frames : List (Nat × List Nat))
    (residual : List Nat) (h : ∀ f ∈ frames, f.2.length < 2 ^ 32)
    (hr : residual.length < 8) :
    _multiplexed_buffer_helper (encodeFrames frames ++ residual)
        = frames.map Prod.snd
      ∧ _multiplexed_response_stream_helper [] = GenResult.ok [] := by
  constructor
  · rw [_multiplexed_buffer_helper_eq_rec]
    exact demuxBufRec_encodeFrames frames residual h hr
  · exact demuxStream_stop

/-- Witness for c3_truncated_tail: one complete frame plus a 3-byte stub. -/
theorem c3_truncated_tail_witness :
    (∀ f ∈ [((1 : Nat), [(10 : Nat), 20])], f.2.length < 2 ^ 32)
      ∧ ([1, 2, 3] : List Nat).length < 8
      ∧ _multiplexed_buffer_helper
          (encodeFrames [(1, [10, 20])] ++ [1, 2, 3]) = [[10, 20]] :=
  ⟨by decide, by decide, by
    rw [(c3_truncated_tail [(1, [10, 20])] [1, 2, 3]
      (by decide) (by decide)).1]
    decide⟩

/-! ## Claim C7 -/

/-- C7 as stated is false: on a truncated buffer whose single header
declares length 100 but which carries only 5 payload bytes, the buffered
demultiplexer emits a 5-byte payload, not the declared 100 bytes — Python
slicing clamps instead of enforcing the invariant. -/
theorem c7_counterexample :
    declaredLens [1, 0, 0, 0, 0, 0, 0, 100, 65, 65, 65, 65, 65] = [100]
      ∧ (_multiplexed_buffer_helper
          [1, 0, 0, 0, 0, 0, 0, 100, 65, 65, 65, 65, 65]).map List.length
          = [5]
      ∧ (100 : Nat) ≠ 5 := by
  refine ⟨?_, ?_, by decide⟩
  · simp [declaredLens, beLen4]
  · rw [_multiplexed_buffer_helper_eq_rec]
    simp [demuxBufRec, beLen4]

/-- C7 (amended): on buffers satisfying the invariant that every declared
frame length fits in the remaining buffered bytes (framesFitB), every
payload the buffered demultiplexer emits has exactly the length declared in
its frame header. -/
theorem c7_fit_lens (buf : List Nat) (h : framesFitB buf = true) :
    (_multiplexed_buffer_helper buf).map List.length = declaredLens buf := by
  rw [_multiplexed_buffer_helper_eq_rec]
  exact demuxBufRec_lens buf h

/-- Witness for c7_fit_lens at a concrete well-formed buffer. -/
theorem c7_fit_lens_witness :
    framesFitB [1, 0, 0, 0, 0, 0, 0, 2, 65, 66] = true
      ∧ (_multiplexed_buffer_helper [1, 0, 0, 0, 0, 0, 0, 2, 65, 66]).map
          List.length = declaredLens [1, 0, 0, 0, 0, 0, 0, 2, 65, 66] :=
  ⟨by simp [framesFitB, beLen4], c7_fit_lens _ (by simp [framesFitB, beLen4])⟩

/-! ## Claim C4 -/

/-- C4: the result helper selects Legacy-Line mode exactly for versions
lexicographically preceding 1.6; otherwise an attached terminal selects
Raw-Passthrough (streamed or fully buffered), and a non-terminal target
selects Multiplexed decoding; the Legacy-Line loop discards exactly the
blank keep-alive lines. -/
theorem c4_mode_selection (ver : List Nat) (stream is_tty : Bool) :
    (_get_result_tty ver stream is_tty = ResultMode.legacyLine
        ↔ List.Lex (· < ·) ver [1, 6])
      ∧ (¬ List.Lex (· < ·) ver [1, 6] → is_tty = true →
          _get_result_tty ver stream is_tty
            = (if stream then ResultMode.rawStream else ResultMode.rawBuffered))
      ∧ (¬ List.Lex (· < ·) ver [1, 6] → is_tty = false →
          _get_result_tty ver stream is_tty
            = (if stream then ResultMode.multiplexedStream
               else ResultMode.multiplexedBuffered))
      ∧ (∀ lines : List (List Nat),
          _stream_raw_result_old lines
            = lines.filter (fun l => !l.isEmpty)) := by
  have hlex := compare_version_neg_iff [1, 6] ver
  refine ⟨?_, ?_, ?_, ?_⟩
  · unfold _get_result_tty
    by_cases hc : compare_version [1, 6] ver < 0
    · simp [hc, hlex.mp hc]
    · rw [if_neg hc]
      constructor
      · intro he
        cases is_tty <;> cases stream <;> simp_all
      · intro hl
        exact absurd (hlex.mpr hl) hc
  · intro hnl ht
    unfold _get_result_tty
    rw [if_neg (fun hc => hnl (hlex.mp hc)), ht, if_pos rfl]
  · intro hnl ht
    unfold _get_result_tty
    rw [if_neg (fun hc => hnl (hlex.mp hc)), ht, if_neg (by simp)]
  · intro lines
    induction lines with
    | nil => rfl
    | cons l ls ih =>
        simp only [_stream_raw_result_old, ih, List.filter_cons]
        cases hl : l.isEmpty <;> simp [hl]

/-- Witness for c4_mode_selection at concrete versions and flags. -/
theorem c4_mode_selection_witness :
    _get_result_tty [1, 5] true false = ResultMode.legacyLine
      ∧ _get_result_tty [1, 13] true true = ResultMode.rawStream
      ∧ _get_result_tty [1, 13] false false = ResultMode.multiplexedBuffered := by
  refine ⟨?_, ?_, ?_⟩
  · exact (c4_mode_selection [1, 5] true false).1.mpr (by decide)
  · have h := (c4_mode_selection [1, 13] true true).2.1 (by decide) rfl
    simpa using h
  · have h := (c4_mode_selection [1, 13] false false).2.2.1 (by decide) rfl
    simpa using h

/-! ## Claim C5 -/

/-- C5: with version auto and discovery response ApiVersion 1.30, the
construction resolves the version to 1.30 after exactly one network call,
without a compatibility warning; every versioned URL then interpolates the
prefix /v1.30/ between the base address and the path; and a discovery
response missing the ApiVersion key produces the descriptive
DockerException. -/
theorem c5_auto_negotiation :
    APIClient_init (some "tcp://127.0.0.1:2375") (some "auto") false
        [("ApiVersion", "1.30")]
      = (Except.ok { base_url := some "tcp://127.0.0.1:2375",
                     version := "1.30", warningCount := 0 }, 1)
    ∧ (∀ base path : String,
        _url base "1.30" ("/" ++ path) true = base ++ "/v1.30/" ++ path)
    ∧ (∀ discovery : List (String × String),
        discovery.lookup "ApiVersion" = none →
          _retrieve_server_version discovery
            = Except.error
              "Invalid response from docker daemon: key \"ApiVersion\" is missing.") := by
  refine ⟨by decide, ?_, ?_⟩
  · intro base path
    unfold _url
    rw [if_pos rfl]
    simp only [String.append_assoc]
    congr 1
  · intro discovery hnone
    unfold _retrieve_server_version
    rw [hnone]

/-- Witness for c5_auto_negotiation: a concrete URL and a concrete
discovery response lacking the ApiVersion key. -/
theorem c5_auto_negotiation_witness :
    _url "http+docker://localunixsocket" "1.30" ("/" ++ "info") true
        = "http+docker://localunixsocket" ++ "/v1.30/" ++ "info"
      ∧ _retrieve_server_version [("Version", "17.03.1")]
        = Except.error
          "Invalid response from docker daemon: key \"ApiVersion\" is missing." :=
  ⟨c5_auto_negotiation.2.1 "http+docker://localunixsocket" "info",
    c5_auto_negotiation.2.2 [("Version", "17.03.1")] (by decide)⟩

/-! ## Claim C6 -/

/-- C6: requesting TLS without a base address fails at once with the
TLSParameterError message, with zero network calls issued, whatever the
requested version and whatever the daemon would have answered. -/
theorem c6_tls_requires_base_url (version : Option String)
    (discovery : List (String × String)) :
    APIClient_init none version true discovery
      = (Except.error "If using TLS, the base_url argument must be provided.",
         0) := by
  rfl

/-! ## Claim C8 -/

/-- C8: an explicitly supplied version (not the auto sentinel) always
constructs successfully with zero network calls; when it is older than the
minimum-supported constant the session records exactly one compatibility
warning, otherwise none. -/
theorem c8_version_warning (v base : String)
    (discovery : List (String × String)) (hauto : lowerStr v ≠ "auto") :
    ∃ s : Session,
      APIClient_init (some base) (some v) false discovery = (Except.ok s, 0)
        ∧ s.version = v
        ∧ (version_lt v MINIMUM_DOCKER_API_VERSION = true → s.warningCount = 1)
        ∧ (version_lt v MINIMUM_DOCKER_API_VERSION = false →
            s.warningCount = 0) := by
  refine ⟨{ base_url := some base, version := v,
            warningCount :=
              if version_lt v MINIMUM_DOCKER_API_VERSION then 1 else 0 },
    ?_, rfl, ?_, ?_⟩
  · simp [APIClient_init, resolveVersionCalls, hauto]
  · intro h
    simp [h]
  · intro h
    simp [h]

/-- Witness for c8_version_warning: version 1.20 (below the minimum 1.21)
warns once; version 1.30 warns zero times. -/
theorem c8_version_warning_witness :
    lowerStr "1.20" ≠ "auto"
      ∧ version_lt "1.20" MINIMUM_DOCKER_API_VERSION = true
      ∧ (∃ s : Session,
          APIClient_init (some "tcp://example:2375") (some "1.20") false []
              = (Except.ok s, 0)
            ∧ s.warningCount = 1)
      ∧ version_lt "1.30" MINIMUM_DOCKER_API_VERSION = false
      ∧ (∃ s : Session,
          APIClient_init (some "tcp://example:2375") (some "1.30") false []
              = (Except.ok s, 0)
            ∧ s.warningCount = 0) := by
  refine ⟨by decide, by decide, ?_, by decide, ?_⟩
  · obtain ⟨s, h1, _, h3, _⟩ :=
      c8_version_warning "1.20" "tcp://example:2375" [] (by decide)
    exact ⟨s, h1, h3 (by decide)⟩
  · obtain ⟨s, h1, _, _, h4⟩ :=
      c8_version_warning "1.30" "tcp://example:2375" [] (by decide)
    exact ⟨s, h1, h4 (by decide)⟩

/-! ## Claim C9 -/

theorem disableTimeoutOne_spec (r : RawSock)
    (hg : r.has_settimeout = true → r.has_gettimeout = true)
    (hq : ∀ q : ℚ, r.timeout = some q → 0 ≤ q) :
    disableSpec r (disableTimeoutOne r) := by
  obtain ⟨hst, hgt, hto⟩ := r
  cases hst with
  | false =>
      have hres : disableTimeoutOne ⟨false, hgt, hto⟩ = ⟨false, hgt, hto⟩ := by
        simp [disableTimeoutOne]
      unfold disableSpec
      rw [hres]
      exact ⟨fun _ => rfl, fun _ => rfl, fun _ => rfl,
        fun q hq1 hq2 habs => Bool.noConfusion habs,
        fun hne => absurd rfl hne⟩
  | true =>
      have hgt2 : hgt = true := hg rfl
      subst hgt2
      cases hto with
      | none =>
          have hres : disableTimeoutOne ⟨true, true, none⟩
              = ⟨true, true, none⟩ := by
            simp [disableTimeoutOne]
          unfold disableSpec
          rw [hres]
          exact ⟨fun habs => Bool.noConfusion habs, fun _ => rfl,
            fun habs => Option.noConfusion habs,
            fun q habs _ _ => Option.noConfusion habs,
            fun hne => absurd rfl hne⟩
      | some q =>
          by_cases hq0 : q = 0
          · subst hq0
            have hres : disableTimeoutOne ⟨true, true, some 0⟩
                = ⟨true, true, some 0⟩ := by
              simp [disableTimeoutOne]
            unfold disableSpec
            rw [hres]
            refine ⟨fun habs => Bool.noConfusion habs,
              fun habs => Option.noConfusion habs, fun _ => rfl, ?_,
              fun hne => absurd rfl hne⟩
            intro w hsome hwpos _
            have hw : (0 : ℚ) = w := Option.some.inj hsome
            rw [← hw] at hwpos
            exact absurd hwpos (lt_irrefl 0)
          · have hres : disableTimeoutOne ⟨true, true, some q⟩
                = ⟨true, true, none⟩ := by
              simp [disableTimeoutOne, hq0]
            unfold disableSpec
            rw [hres]
            refine ⟨fun habs => Bool.noConfusion habs,
              fun habs => Option.noConfusion habs, ?_, ?_, ?_⟩
            · intro habs
              exact absurd (Option.some.inj habs) hq0
            · intro w hsome hwpos _
              rfl
            · intro _
              refine ⟨rfl, q, rfl, ?_⟩
              have hge := hq q rfl
              exact lt_of_le_of_ne hge (fun h0 => hq0 h0.symm)

/-- C9: _disable_socket_timeout, applied to an extracted socket and its
optional nested raw socket, leaves each component untouched when it lacks a
settimeout capability, when its timeout is already disabled, or when it is
non-blocking (timeout 0.0); it sets the timeout to infinite (None) exactly
when a finite positive timeout is active.  The hypotheses record the socket
API invariants: a socket exposing settimeout also exposes gettimeout, and
socket timeouts are never negative. -/
theorem c9_disable_socket_timeout (s : SockPair)
    (hg : s.outer.has_settimeout = true → s.outer.has_gettimeout = true)
    (hq : ∀ q : ℚ, s.outer.timeout = some q → 0 ≤ q)
    (hin : ∀ r : RawSock, s.inner = some r →
      (r.has_settimeout = true → r.has_gettimeout = true)
        ∧ ∀ q : ℚ, r.timeout = some q → 0 ≤ q) :
    disableSpec s.outer (_disable_socket_timeout s).outer
      ∧ (s.inner = none → (_disable_socket_timeout s).inner = none)
      ∧ (∀ r : RawSock, s.inner = some r →
          (_disable_socket_timeout s).inner = some (disableTimeoutOne r)
            ∧ disableSpec r (disableTimeoutOne r)) := by
  refine ⟨disableTimeoutOne_spec s.outer hg hq, ?_, ?_⟩
  · intro h
    simp [_disable_socket_timeout, h]
  · intro r hr
    exact ⟨by simp [_disable_socket_timeout, hr],
      disableTimeoutOne_spec r (hin r hr).1 (hin r hr).2⟩

/-- Witness for c9_disable_socket_timeout: the outer socket with an active
5-second timeout gets its timeout disabled, while the nested raw socket
whose timeout is already disabled is left untouched. -/
theorem c9_disable_socket_timeout_witness :
    (_disable_socket_timeout sampleSockPair).outer
        = { has_settimeout := true, has_gettimeout := true, timeout := none }
      ∧ (_disable_socket_timeout sampleSockPair).inner
        = some { has_settimeout := true, has_gettimeout := true,
                 timeout := none } := by
  have h := c9_disable_socket_timeout sampleSockPair
    (fun _ => rfl)
    (fun q hq => by
      have h5 : some (5 : ℚ) = some q := hq
      cases h5
      norm_num)
    (fun r hr => by
      have hr2 : some ({ has_settimeout := true, has_gettimeout := true, timeout := none } : RawSock) = some r := hr
      cases hr2
      exact ⟨fun _ => rfl, fun q hq => by cases hq⟩)
  obtain ⟨ho, _, hi⟩ := h
  constructor
  · have h4 := ho.2.2.2.1 5 rfl (by norm_num) rfl
    rw [h4]
    rfl
  · obtain ⟨heq, hspec⟩ := hi _ rfl
    rw [heq]
    rfl

/-! ## Claim C10 -/

theorem _post_json_body_mem {α : Type} (data : List (String × Option α))
    (k : String) (v : α) :
    (k, v) ∈ _post_json_body data ↔ (k, some v) ∈ data := by
  unfold _post_json_body
  rw [List.mem_filterMap]
  constructor
  · rintro ⟨⟨k1, ov⟩, hmem, hf⟩
    cases ov with
    | none => simp at hf
    | some w =>
        simp only [Option.some.injEq, Prod.mk.injEq] at hf
        obtain ⟨hk, hv⟩ := hf
        subst hk
        subst hv
        exact hmem
  · intro hmem
    exact ⟨(k, some v), hmem, rfl⟩

theorem dictGet_map_overwrite (k v : String) (hs : List (String × String))
    (h : hs.any (fun p => decide (p.1 = k)) = true) :
    dictGet k (hs.map (fun p => if p.1 = k then (k, v) else p)) = some v := by
  induction hs with
  | nil => simp at h
  | cons p t ih =>
      obtain ⟨k1, v1⟩ := p
      simp only [List.any_cons, Bool.or_eq_true, decide_eq_true_eq] at h
      simp only [List.map_cons]
      by_cases hp : k1 = k
      · subst hp
        simp [dictGet]
      · rw [if_neg hp]
        simp only [dictGet]
        rw [if_neg hp]
        apply ih
        rcases h with h | h
        · exact absurd h hp
        · exact h

theorem dictGet_append_new (k v : String) (hs : List (String × String))
    (h : hs.any (fun p => decide (p.1 = k)) = false) :
    dictGet k (hs ++ [(k, v)]) = some v := by
  induction hs with
  | nil => simp [dictGet]
  | cons p t ih =>
      obtain ⟨k1, v1⟩ := p
      simp only [List.any_cons, Bool.or_eq_false_iff,
        decide_eq_false_iff_not] at h
      simp only [List.cons_append, dictGet]
      rw [if_neg h.1]
      exact ih h.2

theorem dictSet_dictGet (hs : List (String × String)) (k v : String) :
    dictGet k (dictSet hs k v) = some v := by
  unfold dictSet
  cases h : hs.any (fun p => decide (p.1 = k)) with
  | true =>
      rw [if_pos rfl]
      exact dictGet_map_overwrite k v hs h
  | false =>
      rw [if_neg Bool.false_ne_true]
      exact dictGet_append_new k v hs h

/-- C10: _post_json on a dict payload keeps exactly the items whose value is
not None — a pair is in the serialized body iff it is a non-None item of the
payload, and under distinct dict keys a None-valued key disappears entirely
— and the Content-Type header of the produced request is set to
application/json. -/
theorem c10_post_json {α : Type} (data : List (String × Option α))
    (headers : List (String × String))
    (hnd : (data.map Prod.fst).Nodup) :
    (∀ (k : String) (v : α),
        (k, v) ∈ (_post_json data headers).body ↔ (k, some v) ∈ data)
      ∧ (∀ k : String, (k, (none : Option α)) ∈ data →
          ∀ v : α, (k, v) ∉ (_post_json data headers).body)
      ∧ dictGet "Content-Type" (_post_json data headers).headers
          = some "application/json" := by
  refine ⟨?_, ?_, ?_⟩
  · intro k v
    exact _post_json_body_mem data k v
  · intro k hknone v hkv
    rw [show (_post_json data headers).body = _post_json_body data from rfl,
      _post_json_body_mem data k v] at hkv
    have heq := List.inj_on_of_nodup_map hnd hknone hkv rfl
    cases heq
  · exact dictSet_dictGet headers "Content-Type" "application/json"

/-- Witness for c10_post_json on a concrete two-key dict. -/
theorem c10_post_json_witness :
    (("a", 1) ∈ (_post_json [("a", some 1), ("b", none)]
        ([] : List (String × String))).body)
      ∧ ("b", 2) ∉ (_post_json [("a", some 1), ("b", none)]
          ([] : List (String × String))).body
      ∧ dictGet "Content-Type"
          (_post_json [("a", some 1), ("b", none)]
            ([] : List (String × String))).headers
          = some "application/json" := by
  have h := c10_post_json [("a", some 1), ("b", (none : Option Nat))] [] (by decide)
  exact ⟨(h.1 "a" 1).mpr (by decide), h.2.1 "b" (by decide) 2, h.2.2⟩

end DockerPy
